import Mathlib

/-!
Verification of the renderlayout repository (a Go wrapper over the goview
template engine).  The repository contains two generations of the same
design: `render.go` (multi-provider, accumulating error merge) and an
earlier file of unknown name (single-error-key merge, `LayoutRenderer`).
We embed both, with Go maps modelled as association lists over string
keys (`SMap`), Go map iteration modelled by list order (this only affects
results at the level of individual keys when a source list has duplicate
keys, which a real Go map cannot have), Go `interface{}` values modelled
by the inductive `Value`, Go errors modelled by `GoError` (a wrapped
error carries the `Error()` text of its cause, matching what
`errors.Unwrap` followed by `.Error()` observes), and the external
goview engine modelled as an oracle function.
-/

set_option maxHeartbeats 1000000

/-- A Go `interface{}` value as it occurs in view-data maps: `vnil` is the
nil interface (also the result of reading an absent map key), `str` a
string, `strList` a `[]string`, and `other` an arbitrary non-string
payload identified by a tag. -/
inductive Value where
  | vnil
  | str (s : String)
  | strList (l : List String)
  | other (n : Nat)
deriving DecidableEq

/-- Association-list model of a Go `map[string]α`. -/
abbrev SMap (α : Type) : Type := List (String × α)

/-- `m[k] = v` on a Go map: replace the binding if the key is present,
otherwise append it. -/
def SMap.set {α : Type} : SMap α → String → α → SMap α
  | [], k, v => [(k, v)]
  | p :: rest, k, v => if p.1 = k then (k, v) :: rest else p :: SMap.set rest k v

/-- Go map read with an explicit default (Go returns the zero value of the
element type for an absent key). -/
def SMap.getD {α : Type} : SMap α → String → α → α
  | [], _, d => d
  | p :: rest, k, d => if p.1 = k then p.2 else SMap.getD rest k d

/-- Whether the key is present in the map. -/
def SMap.containsKey {α : Type} : SMap α → String → Bool
  | [], _ => false
  | p :: rest, k => if p.1 = k then true else SMap.containsKey rest k

/-- `for k, v := range src { dst[k] = v }`. -/
def SMap.merge {α : Type} (dst src : SMap α) : SMap α :=
  src.foldl (fun d p => SMap.set d p.1 p.2) dst

/-- The keys of the association list are pairwise distinct (every map-valued
Go expression satisfies this). -/
def SMap.NodupKeys {α : Type} (m : SMap α) : Prop :=
  (m.map Prod.fst).Nodup

instance {α : Type} (m : SMap α) : Decidable (SMap.NodupKeys m) := by
  unfold SMap.NodupKeys; infer_instance

/-- A view-data map `map[string]interface{}`. -/
abbrev GoMap : Type := SMap Value

/-- Reading a view-data map: absent keys read as the nil interface. -/
def GoMap.goGet (m : GoMap) (k : String) : Value :=
  SMap.getD m k Value.vnil

/-- A Go error as observed by this package: either it unwraps
(`errors.Unwrap(err) != nil`) to a cause whose `Error()` text is `cause`,
or it does not unwrap and only its own text `msg` exists. -/
inductive GoError where
  | wrapped (cause : String)
  | plain (msg : String)
deriving DecidableEq

/-- `errors.Unwrap`: the cause's message when the error wraps one. -/
def unwrapErr : GoError → Option String
  | .wrapped cause => some cause
  | .plain _ => none

/-- The pair returned by one invocation of a data provider
(`func(w, r) (map[string]interface{}, error)`): `data = none` models a nil
map, `err = none` a nil error. -/
structure ProvResult where
  data : Option GoMap
  err : Option GoError
deriving DecidableEq

/-- `strings.ToLower` (rune-wise lowering, faithful on ASCII). -/
def strToLower (s : String) : String :=
  String.mk (s.data.map Char.toLower)

/-- The source's `first` helper: empty string maps to itself, otherwise the
first rune is upper-cased. -/
def first (str : String) : String :=
  match str.data with
  | [] => ""
  | c :: rest => String.mk (Char.toUpper c :: rest)

/-- Rendering of a `Value` under the `fmt` verb `%s` (exact on strings,
which is the only case the claims exercise; the remaining constructors
record fmt's shape for non-string operands). -/
def fmtS : Value → String
  | .str s => s
  | .vnil => "%!s(<nil>)"
  | .strList l => "[" ++ String.intercalate " " l ++ "]"
  | .other n => "%!s(int=" ++ toString n ++ ")"

/-- Character-level model of `fmt.Fprintf` applied to a format string with
zero arguments: plain characters pass through, `%%` prints `%`, a `%` with
any other verb has a missing operand, a trailing `%` has no verb.  Exact
for format strings containing no `%`. -/
def fmtNoArgsAux : List Char → List Char
  | [] => []
  | c :: rest =>
    if c = '%' then
      match rest with
      | [] => ("%!(NOVERB)").data
      | c2 :: rest2 =>
        if c2 = '%' then '%' :: fmtNoArgsAux rest2
        else '%' :: '!' :: c2 :: (("(MISSING)").data ++ fmtNoArgsAux rest2)
    else c :: fmtNoArgsAux rest

/-- `fmt.Fprintf(w, format)` with no arguments: the text written to `w`. -/
def fprintfNoArgs (format : String) : String :=
  String.mk (fmtNoArgsAux format.data)

/-- The format string uses no formatting verb. -/
def noPercent (s : String) : Bool :=
  s.data.all (fun c => c != '%')

/-- `strings.HasSuffix`, modelled on the character sequence. -/
def goHasSuffix (s sfx : String) : Bool :=
  List.isSuffixOf sfx.data s.data

/-- `strings.TrimSuffix`: drop the suffix when present, otherwise return
the string unchanged. -/
def trimSuffix (s sfx : String) : String :=
  if goHasSuffix s sfx then String.mk (s.data.take (s.data.length - sfx.data.length))
  else s

/-- The partial-discovery loop shared by both generations of `New`: walk
the directory listing in order, skip entries not ending in the configured
extension, and emit `<pdir>/<name-without-extension>` for the rest. -/
def discoverPartials (pdir ext : String) : List String → List String
  | [] => []
  | name :: rest =>
    if goHasSuffix name ext then
      (pdir ++ "/" ++ trimSuffix name ext) :: discoverPartials pdir ext rest
    else
      discoverPartials pdir ext rest

/-- A template function table `template.FuncMap`, with implementations
abstracted to tags. -/
abbrev FuncMap : Type := SMap Nat

/-- The `goview.Config` record built by `New` (fields the source sets; the
`Delims` field of `goview.Config` is never set by the source and therefore
stays at its zero value). -/
structure EngineConfig where
  root : String
  extension : String
  master : String
  partialList : List String
  disableCache : Bool
  funcs : FuncMap
  delims : String × String
deriving DecidableEq

/-- The external goview engine as an oracle: given view name and context,
either the rendered body or an error. -/
abbrev Engine : Type := String → GoMap → Except String String

/-- Observable outcome of one HTTP request through a handler: a runtime
panic, or a response body written to the client. -/
inductive Outcome where
  | panicked
  | wrote (body : String)
deriving DecidableEq

namespace RL

/-!  Embedding of `render.go` (the accumulating, multi-provider shape). -/

/-- The `renderer` struct fields that are plain data (the `defaultData`
provider function is represented at the pipeline level by the `Option
ProvResult` it produces for the request at hand). -/
structure Cfg where
  errorKey : String
  root : String
  layout : String
  layouts : String
  partialsDir : String
  extension : String
  disableCache : Bool
  renderError : String
  delims : String × String
  funcs : FuncMap
  debug : Bool
deriving DecidableEq

/-- The defaults-seeded renderer literal at the top of `render.go`'s `New`. -/
def defaultRenderer : Cfg :=
  { errorKey := "errors"
    root := "templates"
    layout := "index"
    layouts := "layouts"
    partialsDir := "partials"
    extension := ".html"
    disableCache := false
    renderError := "Something went wrong."
    delims := ("\x7b\x7b", "\x7d\x7d")
    funcs := []
    debug := false }

/-- A functional option (`type Option func(*renderer)`). -/
abbrev Opt : Type := Cfg → Cfg

def Debug (enable : Bool) : Opt := fun r => { r with debug := enable }

def ErrorKey (key : String) : Opt := fun r => { r with errorKey := key }

def TemplatesPath (p : String) : Opt := fun r => { r with root := p }

def LayoutsPath (p : String) : Opt := fun r => { r with layouts := p }

def PartialsPath (p : String) : Opt := fun r => { r with partialsDir := p }

def Layout (l : String) : Opt := fun r => { r with layout := l }

def Extension (e : String) : Opt := fun r => { r with extension := "." ++ e }

def DisableCache (b : Bool) : Opt := fun r => { r with disableCache := b }

def Delimiters (l r : String) : Opt := fun c => { c with delims := (l, r) }

def AddFuncs (fm : FuncMap) : Opt := fun r => { r with funcs := fm }

def RenderError (e : String) : Opt := fun r => { r with renderError := e }

/-- `for _, opt := range opts { opt(lr) }`. -/
def applyOpts (opts : List Opt) (c : Cfg) : Cfg :=
  opts.foldl (fun c o => o c) c

/-- The `allFuncs` construction in `New`: a fresh table, user entries
copied in first, then the sprig baseline copied over them. -/
def mkAllFuncs (user sprigFm : FuncMap) : FuncMap :=
  SMap.merge (SMap.merge [] user) sprigFm

/-- `New` after a successful directory listing: the resolved renderer and
the `goview.Config` handed to `goview.New`.  `sprigFm` stands for
`sprig.FuncMap()` and `listing` for the names returned by
`ioutil.ReadDir(root/partials)`. -/
def NewOk (sprigFm : FuncMap) (listing : List String) (opts : List Opt) :
    Cfg × EngineConfig :=
  let lr := applyOpts opts defaultRenderer
  let lr := { lr with funcs := mkAllFuncs lr.funcs sprigFm }
  let ps := discoverPartials lr.partialsDir lr.extension listing
  (lr,
   { root := lr.root
     extension := lr.extension
     master := lr.layouts ++ "/" ++ lr.layout
     partialList := ps
     disableCache := lr.disableCache
     funcs := sprigFm
     delims := ("", "") })

/-- `New` including the `ReadDir` failure path (`listing = none`). -/
def New (sprigFm : FuncMap) (listing : Option (List String)) (opts : List Opt) :
    Except Unit (Cfg × EngineConfig) :=
  match listing with
  | none => Except.error ()
  | some names => Except.ok (NewOk sprigFm names opts)

/-- Loop state of the returned handler: the assembled `viewData` map and
the accumulated `errStrings`. -/
structure Acc where
  viewData : GoMap
  errStrings : List String
deriving DecidableEq

/-- One provider's turn in the handler body: a user-facing (unwrappable)
error appends one formatted string, an internal error only logs, and the
returned map is merged in regardless. -/
def stepAcc (acc : Acc) (res : ProvResult) : Acc :=
  let errStrings :=
    match res.err with
    | some e =>
      match unwrapErr e with
      | some cause => acc.errStrings ++ [first (strToLower cause)]
      | none => acc.errStrings
    | none => acc.errStrings
  { viewData := SMap.merge acc.viewData (res.data.getD [])
    errStrings := errStrings }

/-- The data pipeline of the handler returned by `New`: run the default
provider (when configured), then every per-call provider in order, then
store the error list at the error key only when it is non-empty. -/
def pipeline (cfg : Cfg) (defaultRes : Option ProvResult)
    (results : List ProvResult) : GoMap :=
  let acc0 : Acc := { viewData := [], errStrings := [] }
  let acc1 :=
    match defaultRes with
    | none => acc0
    | some r => stepAcc acc0 r
  let acc := results.foldl stepAcc acc1
  if acc.errStrings.isEmpty then acc.viewData
  else SMap.set acc.viewData cfg.errorKey (Value.strList acc.errStrings)

/-- The full request handling of the handler returned by `New`: assemble
the context, call the engine, and on engine failure write the configured
fallback through `fmt.Fprintf` with no arguments. -/
def respond (cfg : Cfg) (eng : Engine) (view : String)
    (defaultRes : Option ProvResult) (results : List ProvResult) : Outcome :=
  let viewData := pipeline cfg defaultRes results
  match eng view viewData with
  | Except.ok body => Outcome.wrote body
  | Except.error _ => Outcome.wrote (fprintfNoArgs cfg.renderError)

end RL

namespace LR

/-!  Embedding of the earlier generation (`LayoutRenderer`, single
error key holding a string). -/

/-- The `LayoutRenderer` struct fields that are plain data. -/
structure Cfg where
  errorKey : String
  root : String
  layout : String
  layouts : String
  partialsDir : String
  extension : String
  disableCache : Bool
  defaultError : String
  renderError : String
  delims : String × String
  funcs : FuncMap
deriving DecidableEq

/-- The defaults-seeded literal at the top of this generation's `New`. -/
def defaultRenderer : Cfg :=
  { errorKey := "error"
    root := "templates"
    layout := "index"
    layouts := "layouts"
    partialsDir := "partials"
    extension := ".html"
    disableCache := false
    defaultError := "Internal Error"
    renderError := "Something went wrong."
    delims := ("\x7b\x7b", "\x7d\x7d")
    funcs := [] }

/-- `type LayoutRendererOption func(*LayoutRenderer)`. -/
abbrev Opt : Type := Cfg → Cfg

def ErrorKey (key : String) : Opt := fun r => { r with errorKey := key }

def TemplatesPath (p : String) : Opt := fun r => { r with root := p }

def LayoutsPath (p : String) : Opt := fun r => { r with layouts := p }

def PartialsPath (p : String) : Opt := fun r => { r with partialsDir := p }

def Layout (l : String) : Opt := fun r => { r with layout := l }

def Extension (e : String) : Opt := fun r => { r with extension := "." ++ e }

def DisableCache (b : Bool) : Opt := fun r => { r with disableCache := b }

def Delimiters (l r : String) : Opt := fun c => { c with delims := (l, r) }

def AddFuncs (fm : FuncMap) : Opt := fun r => { r with funcs := fm }

def DefaultError (e : String) : Opt := fun r => { r with defaultError := e }

def RenderError (e : String) : Opt := fun r => { r with renderError := e }

def applyOpts (opts : List Opt) (c : Cfg) : Cfg :=
  opts.foldl (fun c o => o c) c

/-- Same `allFuncs` construction as `render.go`. -/
def mkAllFuncs (user sprigFm : FuncMap) : FuncMap :=
  SMap.merge (SMap.merge [] user) sprigFm

/-- This generation's `New` after a successful directory listing. -/
def NewOk (sprigFm : FuncMap) (listing : List String) (opts : List Opt) :
    Cfg × EngineConfig :=
  let d := applyOpts opts defaultRenderer
  let d := { d with funcs := mkAllFuncs d.funcs sprigFm }
  let ps := discoverPartials d.partialsDir d.extension listing
  (d,
   { root := d.root
     extension := d.extension
     master := d.layouts ++ "/" ++ d.layout
     partialList := ps
     disableCache := d.disableCache
     funcs := sprigFm
     delims := ("", "") })

/-- `Handle`, first phase: the `viewData` map after the optional default
handler ran — on a wrapped default-handler error the error key gets the
formatted cause, on a plain error it gets the configured default message,
and then the default handler's map is merged over it. -/
def preViewData (cfg : Cfg) : Option ProvResult → GoMap
  | none => []
  | some res =>
    let vd : GoMap :=
      match res.err with
      | none => []
      | some e =>
        match unwrapErr e with
        | some cause => SMap.set [] cfg.errorKey (Value.str (first (strToLower cause)))
        | none => SMap.set [] cfg.errorKey (Value.str cfg.defaultError)
    SMap.merge vd (res.data.getD [])

/-- `Handle`, second phase: fold the view handler's error into `viewData` —
a wrapped cause is concatenated (via `fmt.Sprintf("%s %s", ...)`) onto an
already non-nil error entry, otherwise stored directly; a plain error
stores the configured default message. -/
def postViewData (cfg : Cfg) (pre : GoMap) : Option GoError → GoMap
  | none => pre
  | some e =>
    match unwrapErr e with
    | some cause =>
      if GoMap.goGet pre cfg.errorKey ≠ Value.vnil then
        SMap.set pre cfg.errorKey
          (Value.str (fmtS (GoMap.goGet pre cfg.errorKey) ++ " " ++ first (strToLower cause)))
      else
        SMap.set pre cfg.errorKey (Value.str (first (strToLower cause)))
    | none => SMap.set pre cfg.errorKey (Value.str cfg.defaultError)

/-- The context `Handle` passes to the engine: `viewData` is copied onto
the view handler's returned map (`for k, v := range viewData { data[k] = v }`).
When that map is nil and `viewData` is non-empty, the assignment into a nil
map is a runtime panic, modelled as `none`. -/
def handleCtx (cfg : Cfg) (defaultRes : Option ProvResult)
    (viewRes : ProvResult) : Option GoMap :=
  let vd := postViewData cfg (preViewData cfg defaultRes) viewRes.err
  match viewRes.data with
  | some data => some (SMap.merge data vd)
  | none => if vd.isEmpty then some [] else none

/-- The full request handling of `Handle`: assemble the context (possibly
panicking), call the engine, and on engine failure write the configured
fallback through `fmt.Fprintf` with no arguments. -/
def respond (cfg : Cfg) (eng : Engine) (view : String)
    (defaultRes : Option ProvResult) (viewRes : ProvResult) : Outcome :=
  match handleCtx cfg defaultRes viewRes with
  | none => Outcome.panicked
  | some data =>
    match eng view data with
    | Except.ok body => Outcome.wrote body
    | Except.error _ => Outcome.wrote (fprintfNoArgs cfg.renderError)

end LR


/-- The user-facing messages contributed by a list of provider results, in
order: one formatted string per unwrappable error, nothing for an
internal (non-unwrappable) error.  Specification-side characterization of
the error accumulation in `render.go`. -/
def userMsgs (rs : List ProvResult) : List String :=
  rs.filterMap (fun r => (r.err.bind unwrapErr).map (fun c => first (strToLower c)))

/-- The message list contributed by a single provider result (empty or a
singleton). -/
def msgListOf (r : ProvResult) : List String :=
  ((r.err.bind unwrapErr).map (fun c => first (strToLower c))).toList

/-- The data maps of a list of provider results merged left to right into
a fresh map.  Specification-side characterization of the non-error merge
in `render.go`. -/
def mergedData (rs : List ProvResult) : GoMap :=
  rs.foldl (fun m r => SMap.merge m (r.data.getD [])) []

namespace SMap

theorem getD_set_self {α : Type} (m : SMap α) (k : String) (v d : α) :
    getD (set m k v) k d = v := by
  induction m with
  | nil => simp [set, getD]
  | cons p rest ih =>
    by_cases h : p.1 = k
    · simp [set, getD, h]
    · simp [set, getD, h, ih]

theorem getD_set_ne {α : Type} (m : SMap α) (k' k : String) (v d : α)
    (h : k' ≠ k) : getD (set m k' v) k d = getD m k d := by
  induction m with
  | nil => simp [set, getD, h]
  | cons p rest ih =>
    by_cases hp : p.1 = k'
    · have hpk : ¬ p.1 = k := fun hx => h (hp.symm.trans hx)
      simp [set, getD, hp, h, hpk]
    · simp [set, getD, hp, ih]

theorem containsKey_iff {α : Type} (m : SMap α) (k : String) :
    containsKey m k = true ↔ k ∈ m.map Prod.fst := by
  induction m with
  | nil => simp [containsKey]
  | cons p rest ih =>
    by_cases hp : p.1 = k
    · simp [containsKey, hp]
    · simp only [containsKey, if_neg hp, ih, List.map_cons, List.mem_cons]
      constructor
      · exact fun h1 => Or.inr h1
      · rintro (h1 | h1)
        · exact absurd h1.symm hp
        · exact h1

theorem keys_set {α : Type} (m : SMap α) (k : String) (v : α) :
    (set m k v).map Prod.fst
      = if containsKey m k then m.map Prod.fst else m.map Prod.fst ++ [k] := by
  induction m with
  | nil => simp [set, containsKey]
  | cons p rest ih =>
    by_cases hp : p.1 = k
    · simp [set, containsKey, hp]
    · simp only [set, if_neg hp, containsKey, List.map_cons, ih]
      by_cases hc : containsKey rest k = true <;> simp [hc]

theorem containsKey_set_iff {α : Type} (m : SMap α) (k' k : String) (v : α) :
    containsKey (set m k' v) k = true ↔ (k' = k ∨ containsKey m k = true) := by
  rw [containsKey_iff, keys_set]
  by_cases hc : containsKey m k' = true
  · rw [if_pos hc, ← containsKey_iff]
    constructor
    · exact fun h1 => Or.inr h1
    · rintro (h1 | h1)
      · exact h1 ▸ hc
      · exact h1
  · rw [if_neg hc]
    simp only [List.mem_append, List.mem_singleton]
    rw [← containsKey_iff]
    constructor
    · rintro (h1 | h1)
      · exact Or.inr h1
      · exact Or.inl h1.symm
    · rintro (h1 | h1)
      · exact Or.inr h1.symm
      · exact Or.inl h1

theorem nodupKeys_set {α : Type} (m : SMap α) (k : String) (v : α)
    (h : NodupKeys m) : NodupKeys (set m k v) := by
  unfold NodupKeys at h ⊢
  rw [keys_set]
  by_cases hc : containsKey m k = true
  · simpa [hc] using h
  · have hk : k ∉ m.map Prod.fst := fun hm => hc ((containsKey_iff m k).mpr hm)
    simp [hc, List.nodup_append, h, hk]

theorem merge_nil {α : Type} (dst : SMap α) : merge dst [] = dst := rfl

theorem merge_cons {α : Type} (dst : SMap α) (p : String × α) (src : SMap α) :
    merge dst (p :: src) = merge (set dst p.1 p.2) src := rfl

theorem nodupKeys_merge {α : Type} (dst src : SMap α) (h : NodupKeys dst) :
    NodupKeys (merge dst src) := by
  induction src generalizing dst with
  | nil => exact h
  | cons p rest ih => exact merge_cons dst p rest ▸ ih _ (nodupKeys_set dst p.1 p.2 h)

theorem containsKey_merge_iff {α : Type} (dst src : SMap α) (k : String) :
    containsKey (merge dst src) k = true
      ↔ (containsKey dst k = true ∨ containsKey src k = true) := by
  induction src generalizing dst with
  | nil => simp [merge_nil, containsKey]
  | cons p rest ih =>
    rw [merge_cons, ih]
    simp only [containsKey_set_iff, containsKey]
    by_cases hp : p.1 = k <;> simp [hp]

theorem getD_merge {α : Type} (dst src : SMap α) (k : String) (d : α)
    (h : NodupKeys src) :
    getD (merge dst src) k d
      = if containsKey src k then getD src k d else getD dst k d := by
  induction src generalizing dst with
  | nil => simp [merge_nil, containsKey]
  | cons p rest ih =>
    have hsplit : p.1 ∉ rest.map Prod.fst ∧ NodupKeys rest := by
      unfold NodupKeys at h ⊢
      simpa [List.nodup_cons] using h
    rw [merge_cons, ih (set dst p.1 p.2) hsplit.2]
    by_cases hc : containsKey rest k = true
    · have hpk : ¬ p.1 = k := fun hx => hsplit.1 (by
        rw [hx]; exact (containsKey_iff rest k).mp hc)
      simp [containsKey, getD, hc, hpk]
    · by_cases hpk : p.1 = k
      · simp [containsKey, getD, hc, hpk, getD_set_self]
      · simp [containsKey, getD, hc, hpk, getD_set_ne dst p.1 k p.2 d hpk]

end SMap

theorem userMsgs_cons (r : ProvResult) (rs : List ProvResult) :
    userMsgs (r :: rs) = msgListOf r ++ userMsgs rs := by
  rcases r with ⟨d, e⟩
  cases e with
  | none => simp [userMsgs, msgListOf, List.filterMap_cons]
  | some ge =>
    cases ge <;> simp [userMsgs, msgListOf, List.filterMap_cons, unwrapErr]

theorem length_userMsgs (rs : List ProvResult) :
    (userMsgs rs).length = rs.countP (fun r => (r.err.bind unwrapErr).isSome) := by
  induction rs with
  | nil => rfl
  | cons r rest ih =>
    rw [userMsgs_cons, List.length_append, ih, List.countP_cons]
    rcases r with ⟨d, e⟩
    cases e with
    | none => simp [msgListOf, unwrapErr]
    | some ge =>
      cases ge with
      | wrapped c =>
        simp [msgListOf, unwrapErr]
        omega
      | plain s => simp [msgListOf, unwrapErr]

theorem stepAcc_eq (acc : RL.Acc) (r : ProvResult) :
    RL.stepAcc acc r
      = { viewData := SMap.merge acc.viewData (r.data.getD [])
          errStrings := acc.errStrings ++ msgListOf r } := by
  rcases r with ⟨d, e⟩
  cases e with
  | none => simp [RL.stepAcc, msgListOf]
  | some ge => cases ge <;> simp [RL.stepAcc, msgListOf, unwrapErr]

theorem foldl_stepAcc (rs : List ProvResult) (acc : RL.Acc) :
    rs.foldl RL.stepAcc acc
      = { viewData := rs.foldl (fun m r => SMap.merge m (r.data.getD [])) acc.viewData
          errStrings := acc.errStrings ++ userMsgs rs } := by
  induction rs generalizing acc with
  | nil => simp [userMsgs]
  | cons r rest ih =>
    rw [List.foldl_cons, ih, stepAcc_eq, List.foldl_cons, userMsgs_cons]
    simp [List.append_assoc]

theorem pipeline_eq (cfg : RL.Cfg) (dres : Option ProvResult)
    (results : List ProvResult) :
    RL.pipeline cfg dres results
      = if (userMsgs (dres.toList ++ results)).isEmpty
          then mergedData (dres.toList ++ results)
          else SMap.set (mergedData (dres.toList ++ results)) cfg.errorKey
                 (Value.strList (userMsgs (dres.toList ++ results))) := by
  cases dres with
  | none =>
    simp only [RL.pipeline, Option.toList, List.nil_append]
    rw [foldl_stepAcc]
    simp [mergedData]
  | some r =>
    simp only [RL.pipeline, Option.toList, List.cons_append, List.nil_append]
    rw [stepAcc_eq, foldl_stepAcc]
    simp [mergedData, userMsgs_cons, List.foldl_cons]

theorem nodupKeys_preViewData (cfg : LR.Cfg) (dres : Option ProvResult) :
    SMap.NodupKeys (LR.preViewData cfg dres) := by
  cases dres with
  | none => simp [LR.preViewData, SMap.NodupKeys]
  | some r =>
    rcases r with ⟨d, e⟩
    cases e with
    | none =>
      simp only [LR.preViewData]
      exact SMap.nodupKeys_merge _ _ (by simp [SMap.NodupKeys])
    | some ge =>
      cases ge with
      | wrapped c =>
        simp only [LR.preViewData, unwrapErr]
        exact SMap.nodupKeys_merge _ _ (by simp [SMap.set, SMap.NodupKeys])
      | plain s =>
        simp only [LR.preViewData, unwrapErr]
        exact SMap.nodupKeys_merge _ _ (by simp [SMap.set, SMap.NodupKeys])

theorem nodupKeys_postViewData (cfg : LR.Cfg) (pre : GoMap) (e : Option GoError)
    (h : SMap.NodupKeys pre) : SMap.NodupKeys (LR.postViewData cfg pre e) := by
  cases e with
  | none => exact h
  | some ge =>
    cases ge with
    | wrapped c =>
      simp only [LR.postViewData, unwrapErr]
      by_cases hnn : GoMap.goGet pre cfg.errorKey ≠ Value.vnil
      · rw [if_pos hnn]
        exact SMap.nodupKeys_set _ _ _ h
      · rw [if_neg hnn]
        exact SMap.nodupKeys_set _ _ _ h
    | plain s =>
      simp only [LR.postViewData, unwrapErr]
      exact SMap.nodupKeys_set _ _ _ h

theorem postViewData_err (cfg : LR.Cfg) (pre : GoMap) (ge : GoError) :
    ∃ s : String,
      LR.postViewData cfg pre (some ge) = SMap.set pre cfg.errorKey (Value.str s) := by
  cases ge with
  | wrapped c =>
    simp only [LR.postViewData, unwrapErr]
    by_cases hnn : GoMap.goGet pre cfg.errorKey ≠ Value.vnil
    · exact ⟨_, by rw [if_pos hnn]⟩
    · exact ⟨_, by rw [if_neg hnn]⟩
  | plain s => exact ⟨cfg.defaultError, by simp [LR.postViewData, unwrapErr]⟩

theorem getD_postViewData_ne (cfg : LR.Cfg) (pre : GoMap) (e : Option GoError)
    (k : String) (hk : k ≠ cfg.errorKey) (d : Value) :
    SMap.getD (LR.postViewData cfg pre e) k d = SMap.getD pre k d := by
  cases e with
  | none => rfl
  | some ge =>
    rcases postViewData_err cfg pre ge with ⟨s, hs⟩
    rw [hs, SMap.getD_set_ne _ _ _ _ _ (fun hx => hk hx.symm)]

theorem fmtNoArgsAux_noPercent (l : List Char) (h : ∀ c ∈ l, c ≠ '%') :
    fmtNoArgsAux l = l := by
  induction l with
  | nil => rfl
  | cons c rest ih =>
    have hc : c ≠ '%' := h c (List.mem_cons_self c rest)
    have hr : ∀ x ∈ rest, x ≠ '%' := fun x hx => h x (List.mem_cons_of_mem c hx)
    rw [fmtNoArgsAux.eq_def]
    dsimp only
    rw [if_neg hc, ih hr]

theorem fprintfNoArgs_noPercent (s : String) (h : noPercent s = true) :
    fprintfNoArgs s = s := by
  have h' : ∀ c ∈ s.data, c ≠ '%' := by
    intro c hc
    have := (List.all_eq_true.mp h) c hc
    simpa using this
  show String.mk (fmtNoArgsAux s.data) = s
  rw [fmtNoArgsAux_noPercent s.data h']

theorem goGet_merge_singleton (vm : GoMap) (k : String) (v : Value) :
    GoMap.goGet (SMap.merge vm [(k, v)]) k = v := by
  show SMap.getD (SMap.merge vm [(k, v)]) k Value.vnil = v
  rw [SMap.getD_merge _ _ _ _ (by simp [SMap.NodupKeys])]
  simp [SMap.containsKey, SMap.getD]

/-- Claim C8: every option passed to `New` is applied in order to the
defaults-seeded configuration, so when the last of two options setting the
same field sets it to `v`, the resolved configuration holds `v`
(last-write-wins); the extension-option instance is the witness. -/
theorem c8_options_last_write_wins {α : Type} (opts : List RL.Opt)
    (o1 o2 : RL.Opt) (f : RL.Cfg → α) (v : α) (h : ∀ c, f (o2 c) = v) :
    f (RL.applyOpts (opts ++ [o1, o2]) RL.defaultRenderer) = v := by
  have hsplit : RL.applyOpts (opts ++ [o1, o2]) RL.defaultRenderer
      = o2 (o1 (RL.applyOpts opts RL.defaultRenderer)) := by
    simp [RL.applyOpts, List.foldl_append]
  rw [hsplit]
  exact h _

/-- Witness for C8: calling the extension option twice keeps only the last
value. -/
theorem c8_options_last_write_wins_witness :
    (RL.applyOpts ([RL.Extension "md"] ++ [RL.Extension "md", RL.Extension "txt"])
        RL.defaultRenderer).extension = ".txt" :=
  c8_options_last_write_wins [RL.Extension "md"] (RL.Extension "md")
    (RL.Extension "txt") (fun c => c.extension) ".txt"
    (fun c => show "." ++ "txt" = ".txt" by decide)

/-- Claim C9: the discovered partial set consists of exactly the
directory entries whose name ends in the configured extension, emitted as
`<partials-dir>/<name-without-extension>` in listing order (the filter/map
characterization of the discovery loop); `New` registers exactly that set;
and on the listing {header.html, footer.html, notes.txt} with extension
`.html` the set is exactly [partials/header, partials/footer]. -/
theorem c9_partial_discovery :
    (∀ (pdir ext : String) (names : List String),
      discoverPartials pdir ext names
        = (names.filter (fun n => goHasSuffix n ext)).map
            (fun n => pdir ++ "/" ++ trimSuffix n ext)) ∧
    (∀ (sprigFm : FuncMap) (listing : List String) (opts : List RL.Opt),
      (RL.NewOk sprigFm listing opts).2.partialList
        = discoverPartials (RL.applyOpts opts RL.defaultRenderer).partialsDir
            (RL.applyOpts opts RL.defaultRenderer).extension listing) ∧
    discoverPartials "partials" ".html" ["header.html", "footer.html", "notes.txt"]
      = ["partials/header", "partials/footer"] := by
  refine ⟨?_, ?_, ?_⟩
  · intro pdir ext names
    induction names with
    | nil => rfl
    | cons n rest ih =>
      by_cases hn : goHasSuffix n ext = true <;>
        simp [discoverPartials, List.filter_cons, hn, ih]
  · intro sprigFm listing opts
    rfl
  · decide

/-- Claim C10: the Delimiters option stores the pair on the renderer, but
the stored pair never reaches the goview configuration: the engine
configuration built by `New` is identical with or without the option. -/
theorem c10_delimiters_never_passed (l r : String) (opts : List RL.Opt)
    (sprigFm : FuncMap) (listing : List String) :
    (RL.applyOpts (opts ++ [RL.Delimiters l r]) RL.defaultRenderer).delims = (l, r) ∧
    (RL.NewOk sprigFm listing (opts ++ [RL.Delimiters l r])).2
      = (RL.NewOk sprigFm listing opts).2 := by
  have hsplit : RL.applyOpts (opts ++ [RL.Delimiters l r]) RL.defaultRenderer
      = RL.Delimiters l r (RL.applyOpts opts RL.defaultRenderer) := by
    simp [RL.applyOpts, List.foldl_append]
  constructor
  · rw [hsplit]
    rfl
  · unfold RL.NewOk
    rw [hsplit]
    rfl

/-- Claim C3 (bug exhibit): in both generations, the function table handed
to the goview engine is exactly the sprig baseline — user functions passed
via AddFuncs never reach the engine configuration; and in the merged (but
never used) table stored on the renderer, a baseline entry overwrites a
colliding user entry rather than the other way round. -/
theorem c3_user_funcs_never_reach_engine (sprigFm userFm : FuncMap)
    (listing : List String) (opts : List RL.Opt) (opts2 : List LR.Opt) :
    ((RL.NewOk sprigFm listing (opts ++ [RL.AddFuncs userFm])).2.funcs = sprigFm ∧
     (LR.NewOk sprigFm listing (opts2 ++ [LR.AddFuncs userFm])).2.funcs = sprigFm) ∧
    (∀ (k : String) (d : Nat), SMap.containsKey sprigFm k = true →
      SMap.NodupKeys sprigFm →
      SMap.getD (RL.mkAllFuncs userFm sprigFm) k d = SMap.getD sprigFm k d) := by
  refine ⟨⟨rfl, rfl⟩, ?_⟩
  intro k d hck hnd
  unfold RL.mkAllFuncs
  rw [SMap.getD_merge _ _ _ _ hnd, if_pos hck]

/-- Witness for C3: with baseline {upper ↦ 1} and a colliding user entry
{upper ↦ 99}, the engine table is the baseline and the stored merged table
keeps the baseline implementation. -/
theorem c3_user_funcs_never_reach_engine_witness :
    (RL.NewOk [("upper", 1)] ["view.html"]
        ([] ++ [RL.AddFuncs [("upper", 99), ("myfunc", 7)]])).2.funcs = [("upper", 1)] ∧
    SMap.getD (RL.mkAllFuncs [("upper", 99), ("myfunc", 7)] [("upper", 1)]) "upper" 0 = 1 := by
  constructor
  · exact (c3_user_funcs_never_reach_engine [("upper", 1)] [("upper", 99), ("myfunc", 7)]
      ["view.html"] [] []).1.1
  · have h := (c3_user_funcs_never_reach_engine [("upper", 1)] [("upper", 99), ("myfunc", 7)]
      ["view.html"] [] []).2 "upper" 0 (by decide) (by decide)
    rw [h]
    decide

/-- Claim C2: in the accumulating shape, every provider's output is merged
and every provider's error is classified regardless of earlier failures
(order preserved, no short-circuit); each unwrappable (UserFacing) error
appends exactly one string to the ordered list; after all providers run
the error key holds that list as a sequence exactly when it is non-empty
(otherwise the assembled data is untouched); and the list's length equals
the count of UserFacing failures, internal failures contributing zero. -/
theorem c2_accumulating_merge (cfg : RL.Cfg) (dres : Option ProvResult)
    (results : List ProvResult) :
    (userMsgs (dres.toList ++ results) ≠ [] →
      GoMap.goGet (RL.pipeline cfg dres results) cfg.errorKey
        = Value.strList (userMsgs (dres.toList ++ results))) ∧
    (userMsgs (dres.toList ++ results) = [] →
      RL.pipeline cfg dres results = mergedData (dres.toList ++ results)) ∧
    (∀ k, k ≠ cfg.errorKey →
      GoMap.goGet (RL.pipeline cfg dres results) k
        = GoMap.goGet (mergedData (dres.toList ++ results)) k) ∧
    (userMsgs (dres.toList ++ results)).length
      = (dres.toList ++ results).countP (fun r => (r.err.bind unwrapErr).isSome) := by
  refine ⟨?_, ?_, ?_, length_userMsgs _⟩
  · intro hne
    rw [pipeline_eq, if_neg (by simpa [List.isEmpty_iff] using hne)]
    exact SMap.getD_set_self _ _ _ _
  · intro he
    rw [pipeline_eq, if_pos (by simp [he])]
  · intro k hk
    rw [pipeline_eq]
    by_cases hne : (userMsgs (dres.toList ++ results)).isEmpty
    · rw [if_pos hne]
    · rw [if_neg hne]
      exact SMap.getD_set_ne _ _ _ _ _ (fun hx => hk hx.symm)

/-- Witness for C2: a wrapped default-provider failure, an internal
per-call failure and a wrapped per-call failure (with a nil data map)
yield exactly the two formatted UserFacing messages, in order, as a
sequence at the error key. -/
theorem c2_accumulating_merge_witness :
    GoMap.goGet
        (RL.pipeline RL.defaultRenderer
          (some { data := some [("a", Value.str "one")],
                  err := some (GoError.wrapped "boom one") })
          [{ data := some [("a", Value.str "two")],
             err := some (GoError.plain "internal failure") },
           { data := none, err := some (GoError.wrapped "boom two") }])
        "errors"
      = Value.strList ["Boom one", "Boom two"] := by
  have h := (c2_accumulating_merge RL.defaultRenderer
    (some { data := some [("a", Value.str "one")],
            err := some (GoError.wrapped "boom one") })
    [{ data := some [("a", Value.str "two")],
       err := some (GoError.plain "internal failure") },
     { data := none, err := some (GoError.wrapped "boom two") }]).1 (by decide)
  exact h.trans (by decide)

/-- Claim C4: a provider error that unwraps surfaces exactly the cause's
message lower-cased and then first-rune-upper-cased (so cause
"a wrapped message" displays as "A wrapped message"), in both shapes; an
error that does not unwrap never surfaces its raw text: the accumulating
pipeline behaves exactly as if the error were nil (no entry), while the
single-error-key shape stores the configured default error message. -/
theorem c4_error_classification (cfg : RL.Cfg) (cfg2 : LR.Cfg) :
    first (strToLower "a wrapped message") = "A wrapped message" ∧
    (∀ (m : Option GoMap) (c : String),
      GoMap.goGet
          (RL.pipeline cfg none [{ data := m, err := some (GoError.wrapped c) }])
          cfg.errorKey
        = Value.strList [first (strToLower c)]) ∧
    (∀ (dres : Option ProvResult) (l1 l2 : List ProvResult) (m : Option GoMap)
        (s : String),
      RL.pipeline cfg dres (l1 ++ { data := m, err := some (GoError.plain s) } :: l2)
        = RL.pipeline cfg dres (l1 ++ { data := m, err := none } :: l2)) ∧
    (∀ (vm : GoMap) (c : String),
      (LR.handleCtx cfg2 none { data := some vm, err := some (GoError.wrapped c) }).map
          (fun ctx => GoMap.goGet ctx cfg2.errorKey)
        = some (Value.str (first (strToLower c)))) ∧
    (∀ (vm : GoMap) (s : String),
      (LR.handleCtx cfg2 none { data := some vm, err := some (GoError.plain s) }).map
          (fun ctx => GoMap.goGet ctx cfg2.errorKey)
        = some (Value.str cfg2.defaultError)) := by
  refine ⟨by decide, ?_, ?_, ?_, ?_⟩
  · intro m c
    have hm : userMsgs
        ((none : Option ProvResult).toList
          ++ [{ data := m, err := some (GoError.wrapped c) }])
        = [first (strToLower c)] := rfl
    rw [pipeline_eq, hm, if_neg (by simp)]
    exact SMap.getD_set_self _ _ _ _
  · intro dres l1 l2 m s
    have hstep : ∀ acc : RL.Acc,
        RL.stepAcc acc { data := m, err := some (GoError.plain s) }
          = RL.stepAcc acc { data := m, err := none } := fun acc => rfl
    simp only [RL.pipeline, List.foldl_append, List.foldl_cons, hstep]
  · intro vm c
    have h1 : LR.handleCtx cfg2 none { data := some vm, err := some (GoError.wrapped c) }
        = some (SMap.merge vm [(cfg2.errorKey, Value.str (first (strToLower c)))]) := rfl
    rw [h1]
    exact congrArg some (goGet_merge_singleton vm cfg2.errorKey _)
  · intro vm s
    have h1 : LR.handleCtx cfg2 none { data := some vm, err := some (GoError.plain s) }
        = some (SMap.merge vm [(cfg2.errorKey, Value.str cfg2.defaultError)]) := rfl
    rw [h1]
    exact congrArg some (goGet_merge_singleton vm cfg2.errorKey _)

/-- Claim C1 counterexample: with default-provider output {a ↦ fromDefault}
and view-specific output {a ↦ fromView} (no errors), the final context
holds the DEFAULT provider's value at "a", not the view-specific one —
refuting the claimed view-specific precedence. -/
theorem c1_counterexample :
    (LR.handleCtx LR.defaultRenderer
        (some { data := some [("a", Value.str "fromDefault")], err := none })
        { data := some [("a", Value.str "fromView")], err := none }).map
        (fun ctx => GoMap.goGet ctx "a")
      = some (Value.str "fromDefault")
    ∧ Value.str "fromDefault" ≠ Value.str "fromView" := by
  decide

/-- Claim C1 amended: in `LayoutRenderer.Handle` the accumulated map
(default-provider output plus error-bearing entries) is copied onto the
view-specific provider's map last, so a non-error key present in the
default provider's output ends up with the DEFAULT provider's value even
on collision; and when the view-specific provider fails, the error-key
entry of that last-copied map wins over any view-specific data key of the
same name and is a string produced by the error logic. -/
theorem c1_amended_default_wins (cfg : LR.Cfg) (dm vm : GoMap)
    (de ve : Option GoError) :
    (∀ k, k ≠ cfg.errorKey → SMap.containsKey dm k = true → SMap.NodupKeys dm →
      (LR.handleCtx cfg (some { data := some dm, err := de })
          { data := some vm, err := ve }).map (fun ctx => GoMap.goGet ctx k)
        = some (GoMap.goGet dm k)) ∧
    (∀ e, ve = some e →
      (LR.handleCtx cfg (some { data := some dm, err := de })
          { data := some vm, err := ve }).map
          (fun ctx => GoMap.goGet ctx cfg.errorKey)
        = some (GoMap.goGet
            (LR.postViewData cfg
              (LR.preViewData cfg (some { data := some dm, err := de })) ve)
            cfg.errorKey) ∧
      ∃ s, GoMap.goGet
            (LR.postViewData cfg
              (LR.preViewData cfg (some { data := some dm, err := de })) ve)
            cfg.errorKey = Value.str s) := by
  have hctx : LR.handleCtx cfg (some { data := some dm, err := de })
      { data := some vm, err := ve }
      = some (SMap.merge vm
          (LR.postViewData cfg
            (LR.preViewData cfg (some { data := some dm, err := de })) ve)) := rfl
  have hpre_nd : SMap.NodupKeys
      (LR.preViewData cfg (some { data := some dm, err := de })) :=
    nodupKeys_preViewData cfg _
  have hvd_nd : SMap.NodupKeys
      (LR.postViewData cfg
        (LR.preViewData cfg (some { data := some dm, err := de })) ve) :=
    nodupKeys_postViewData cfg _ ve hpre_nd
  constructor
  · intro k hk hck hdm_nd
    rw [hctx]
    refine congrArg some ?_
    have hpre_ck : SMap.containsKey
        (LR.preViewData cfg (some { data := some dm, err := de })) k = true := by
      cases de with
      | none => exact (SMap.containsKey_merge_iff _ _ _).mpr (Or.inr hck)
      | some ge =>
        cases ge with
        | wrapped c => exact (SMap.containsKey_merge_iff _ _ _).mpr (Or.inr hck)
        | plain s => exact (SMap.containsKey_merge_iff _ _ _).mpr (Or.inr hck)
    have hvd_ck : SMap.containsKey
        (LR.postViewData cfg
          (LR.preViewData cfg (some { data := some dm, err := de })) ve) k = true := by
      cases ve with
      | none => exact hpre_ck
      | some e =>
        rcases postViewData_err cfg
          (LR.preViewData cfg (some { data := some dm, err := de })) e with ⟨s, hs⟩
        rw [hs]
        exact (SMap.containsKey_set_iff _ _ _ _).mpr (Or.inr hpre_ck)
    have hpre_get : SMap.getD
        (LR.preViewData cfg (some { data := some dm, err := de })) k Value.vnil
        = SMap.getD dm k Value.vnil := by
      cases de with
      | none =>
        rw [show LR.preViewData cfg (some { data := some dm, err := none })
            = SMap.merge [] dm from rfl]
        rw [SMap.getD_merge _ _ _ _ hdm_nd, if_pos hck]
      | some ge =>
        cases ge with
        | wrapped c =>
          rw [show LR.preViewData cfg
              (some { data := some dm, err := some (GoError.wrapped c) })
              = SMap.merge
                  (SMap.set [] cfg.errorKey (Value.str (first (strToLower c)))) dm
              from rfl]
          rw [SMap.getD_merge _ _ _ _ hdm_nd, if_pos hck]
        | plain s =>
          rw [show LR.preViewData cfg
              (some { data := some dm, err := some (GoError.plain s) })
              = SMap.merge (SMap.set [] cfg.errorKey (Value.str cfg.defaultError)) dm
              from rfl]
          rw [SMap.getD_merge _ _ _ _ hdm_nd, if_pos hck]
    show SMap.getD
        (SMap.merge vm
          (LR.postViewData cfg
            (LR.preViewData cfg (some { data := some dm, err := de })) ve))
        k Value.vnil
      = SMap.getD dm k Value.vnil
    rw [SMap.getD_merge _ _ _ _ hvd_nd, if_pos hvd_ck,
        getD_postViewData_ne cfg _ ve k hk, hpre_get]
  · intro e hve
    subst hve
    rcases postViewData_err cfg
      (LR.preViewData cfg (some { data := some dm, err := de })) e with ⟨s, hs⟩
    have hck2 : SMap.containsKey
        (LR.postViewData cfg
          (LR.preViewData cfg (some { data := some dm, err := de })) (some e))
        cfg.errorKey = true := by
      rw [hs]
      exact (SMap.containsKey_set_iff _ _ _ _).mpr (Or.inl rfl)
    refine ⟨?_, ⟨s, ?_⟩⟩
    · rw [hctx]
      refine congrArg some ?_
      show SMap.getD
          (SMap.merge vm
            (LR.postViewData cfg
              (LR.preViewData cfg (some { data := some dm, err := de })) (some e)))
          cfg.errorKey Value.vnil
        = SMap.getD
            (LR.postViewData cfg
              (LR.preViewData cfg (some { data := some dm, err := de })) (some e))
            cfg.errorKey Value.vnil
      rw [SMap.getD_merge _ _ _ _ hvd_nd, if_pos hck2]
    · show SMap.getD
          (LR.postViewData cfg
            (LR.preViewData cfg (some { data := some dm, err := de })) (some e))
          cfg.errorKey Value.vnil = Value.str s
      rw [hs]
      exact SMap.getD_set_self _ _ _ _

/-- Witness for the amended C1: with colliding key "a" and a failing view
provider, the final context keeps the default provider's value. -/
theorem c1_amended_default_wins_witness :
    (LR.handleCtx LR.defaultRenderer
        (some { data := some [("a", Value.str "d")], err := none })
        { data := some [("a", Value.str "v")],
          err := some (GoError.wrapped "bad") }).map
        (fun ctx => GoMap.goGet ctx "a")
      = some (Value.str "d") := by
  have h := (c1_amended_default_wins LR.defaultRenderer [("a", Value.str "d")]
    [("a", Value.str "v")] none (some (GoError.wrapped "bad"))).1 "a"
    (by decide) (by decide) (by decide)
  exact h.trans (by decide)

/-- Claim C5 counterexample: in the accumulating shape, a provider failure
whose error does not unwrap (internal-only) leaves the error key absent —
an error occurred, yet the context's error key reads as nil. -/
theorem c5_counterexample :
    GoMap.goGet
        (RL.pipeline RL.defaultRenderer none
          [{ data := some [("x", Value.str "1")],
             err := some (GoError.plain "db down") }])
        "errors"
      = Value.vnil := by
  decide

/-- Claim C5 amended: the context's error key is non-nil whenever at least
one UserFacing (unwrappable) provider error occurred; in the accumulating
shape internal-only failures may leave the key absent, while in the
single-error-key shape any view-provider failure (either classification)
yields a non-nil error-key value. -/
theorem c5_amended_error_key (cfg : RL.Cfg) (cfg2 : LR.Cfg) :
    (∀ (dres : Option ProvResult) (results : List ProvResult),
      (∃ r ∈ dres.toList ++ results, (r.err.bind unwrapErr).isSome = true) →
      GoMap.goGet (RL.pipeline cfg dres results) cfg.errorKey ≠ Value.vnil) ∧
    (∀ (dres : Option ProvResult) (vm : GoMap) (e : GoError) (ctx : GoMap),
      LR.handleCtx cfg2 dres { data := some vm, err := some e } = some ctx →
      GoMap.goGet ctx cfg2.errorKey ≠ Value.vnil) := by
  constructor
  · rintro dres results ⟨r, hmem, hsome⟩
    rcases Option.isSome_iff_exists.mp hsome with ⟨c, hc⟩
    have hmem2 : first (strToLower c) ∈ userMsgs (dres.toList ++ results) := by
      show first (strToLower c)
        ∈ List.filterMap
            (fun r => (r.err.bind unwrapErr).map (fun c => first (strToLower c)))
            (dres.toList ++ results)
      apply List.mem_filterMap.mpr
      refine ⟨r, hmem, ?_⟩
      rw [hc]
      rfl
    have hne : userMsgs (dres.toList ++ results) ≠ [] := List.ne_nil_of_mem hmem2
    rw [pipeline_eq, if_neg (by simpa [List.isEmpty_iff] using hne)]
    have hg : GoMap.goGet
        (SMap.set (mergedData (dres.toList ++ results)) cfg.errorKey
          (Value.strList (userMsgs (dres.toList ++ results))))
        cfg.errorKey
        = Value.strList (userMsgs (dres.toList ++ results)) :=
      SMap.getD_set_self _ _ _ _
    rw [hg]
    exact fun hfalse => Value.noConfusion hfalse
  · intro dres vm e ctx hctx
    have hpre_nd := nodupKeys_preViewData cfg2 dres
    have hvd_nd :=
      nodupKeys_postViewData cfg2 (LR.preViewData cfg2 dres) (some e) hpre_nd
    have hid : LR.handleCtx cfg2 dres { data := some vm, err := some e }
        = some (SMap.merge vm
            (LR.postViewData cfg2 (LR.preViewData cfg2 dres) (some e))) := rfl
    rw [hid] at hctx
    have hctx2 := Option.some.inj hctx
    subst hctx2
    rcases postViewData_err cfg2 (LR.preViewData cfg2 dres) e with ⟨s, hs⟩
    have hck2 : SMap.containsKey
        (LR.postViewData cfg2 (LR.preViewData cfg2 dres) (some e))
        cfg2.errorKey = true := by
      rw [hs]
      exact (SMap.containsKey_set_iff _ _ _ _).mpr (Or.inl rfl)
    show SMap.getD
        (SMap.merge vm (LR.postViewData cfg2 (LR.preViewData cfg2 dres) (some e)))
        cfg2.errorKey Value.vnil ≠ Value.vnil
    rw [SMap.getD_merge _ _ _ _ hvd_nd, if_pos hck2, hs, SMap.getD_set_self]
    exact fun hfalse => Value.noConfusion hfalse

/-- Witness for the amended C5: one wrapped provider failure makes the
error key non-nil. -/
theorem c5_amended_error_key_witness :
    GoMap.goGet
        (RL.pipeline RL.defaultRenderer none
          [{ data := none, err := some (GoError.wrapped "oops") }])
        "errors" ≠ Value.vnil :=
  (c5_amended_error_key RL.defaultRenderer LR.defaultRenderer).1 none
    [{ data := none, err := some (GoError.wrapped "oops") }] (by decide)

/-- Claim C6 counterexample: in the single-error-key shape, a view
provider returning a nil map together with a non-nil error makes the
handler panic (assignment into a nil map) instead of writing a
response. -/
theorem c6_counterexample :
    LR.respond LR.defaultRenderer (fun _ _ => Except.ok "page") "home" none
        { data := none, err := some (GoError.wrapped "x") }
      = Outcome.panicked := by
  decide

/-- Claim C6 amended: the accumulating-shape handler completes without
panic and writes some response for every combination of provider results
and engine outcomes; the single-error-key handler does so whenever the
view-specific provider returns a non-nil map (a nil map plus a non-empty
accumulated context panics, per the counterexample). -/
theorem c6_amended_no_panic (cfg : RL.Cfg) (cfg2 : LR.Cfg) (eng eng2 : Engine)
    (view view2 : String) (dres dres2 : Option ProvResult)
    (results : List ProvResult) (vm : GoMap) (ve : Option GoError) :
    (∃ body, RL.respond cfg eng view dres results = Outcome.wrote body) ∧
    (∃ body, LR.respond cfg2 eng2 view2 dres2 { data := some vm, err := ve }
        = Outcome.wrote body) := by
  constructor
  · cases h : eng view (RL.pipeline cfg dres results) with
    | ok b => exact ⟨b, by simp [RL.respond, h]⟩
    | error e => exact ⟨fprintfNoArgs cfg.renderError, by simp [RL.respond, h]⟩
  · have hid : LR.handleCtx cfg2 dres2 { data := some vm, err := ve }
        = some (SMap.merge vm
            (LR.postViewData cfg2 (LR.preViewData cfg2 dres2) ve)) := rfl
    cases h : eng2 view2
        (SMap.merge vm (LR.postViewData cfg2 (LR.preViewData cfg2 dres2) ve)) with
    | ok b => exact ⟨b, by simp [LR.respond, hid, h]⟩
    | error e => exact ⟨fprintfNoArgs cfg2.renderError, by simp [LR.respond, hid, h]⟩

/-- Claim C7: when the engine reports a failure, both handlers write the
configured fallback message (for fallback messages free of formatting
verbs, which `fmt.Fprintf` passes through verbatim) and return — no panic,
regardless of the context's contents. -/
theorem c7_render_failure_fallback (cfg : RL.Cfg) (cfg2 : LR.Cfg)
    (eng eng2 : Engine) (view view2 : String) (dres dres2 : Option ProvResult)
    (results : List ProvResult) (viewRes : ProvResult) (e1 e2 : String) :
    (eng view (RL.pipeline cfg dres results) = Except.error e1 →
      noPercent cfg.renderError = true →
      RL.respond cfg eng view dres results = Outcome.wrote cfg.renderError) ∧
    (∀ ctx, LR.handleCtx cfg2 dres2 viewRes = some ctx →
      eng2 view2 ctx = Except.error e2 →
      noPercent cfg2.renderError = true →
      LR.respond cfg2 eng2 view2 dres2 viewRes = Outcome.wrote cfg2.renderError) := by
  constructor
  · intro hfail hnp
    simp [RL.respond, hfail, fprintfNoArgs_noPercent _ hnp]
  · intro ctx hctx hfail hnp
    simp [LR.respond, hctx, hfail, fprintfNoArgs_noPercent _ hnp]

/-- Witness for C7: a failing engine makes the default-configured handler
write exactly "Something went wrong.". -/
theorem c7_render_failure_fallback_witness :
    RL.respond RL.defaultRenderer (fun _ _ => Except.error "missing template")
        "home" none [] = Outcome.wrote "Something went wrong." := by
  have h := (c7_render_failure_fallback RL.defaultRenderer LR.defaultRenderer
    (fun _ _ => Except.error "missing template") (fun _ _ => Except.ok "")
    "home" "home" none none [] { data := some [], err := none }
    "missing template" "x").1 rfl (by decide)
  exact h

/-- Claim C7 counterexample: the fallback is written via `fmt.Fprintf`
with the configured message as the format string and no arguments, so a
configured message ending in `%` produces a mangled body ("oops%" becomes
"oops%!(NOVERB)"), not the configured string exactly. -/
theorem c7_counterexample :
    RL.respond { RL.defaultRenderer with renderError := "oops%" }
        (fun _ _ => Except.error "missing template") "home" none []
      = Outcome.wrote "oops%!(NOVERB)"
    ∧ "oops%!(NOVERB)" ≠ "oops%" := by
  decide
